import Mathlib

/-!
Shallow embedding of the medication-tracking store in `app4.py`
(class `MedicationTracker` plus the page handlers that manipulate its
collections directly).

Modelling conventions:
* Python dicts keyed by strings become insertion-ordered association
  lists `List (String × α)` with dict-style operations `lookupD`
  (first match), `insertD` (replace in place, else append at the end)
  and `eraseD` (remove the key), mirroring CPython ordered dicts.
  Genuine dicts never hold a duplicate key; theorems that depend on
  that carry an explicit `Nodup` hypothesis on the key list.
* `uuid.uuid4()` and `datetime.now()` are external inputs; they are
  passed to each operation as explicit arguments.
* `datetime` values are modelled as integers (seconds); ISO timestamp
  strings are interpreted by an arbitrary parameter
  `fromiso : String → Int` standing for `datetime.fromisoformat`.
  `timedelta(days = n)` is `n * 86400`.
* The persisted JSON document is modelled by `StoredDoc`; scalar JSON
  values appearing in the records are the type `JVal`.
* Python float averaging (`sum(xs) / len(xs)`) is modelled with exact
  rational division `Rat`.
-/

namespace MediTracker

/-- Scalar JSON values appearing inside the persisted record objects:
strings, integers, booleans, and arrays of strings (the `times` list). -/
inductive JVal where
  | s : String → JVal
  | i : Int → JVal
  | b : Bool → JVal
  | arr : List String → JVal
deriving DecidableEq, Repr

/-- Dict lookup on an ordered association list: first entry with the key. -/
def lookupD {α : Type} : List (String × α) → String → Option α
  | [], _ => none
  | (k, v) :: rest, key => if k = key then some v else lookupD rest key

/-- Dict assignment `d[key] = v`: replace the entry in place if the key is
present, otherwise append the new entry at the end (CPython dict order). -/
def insertD {α : Type} : List (String × α) → String → α → List (String × α)
  | [], key, v => [(key, v)]
  | (k, w) :: rest, key, v =>
      if k = key then (key, v) :: rest else (k, w) :: insertD rest key v

/-- Dict deletion `del d[key]`: drop the entry with the key. -/
def eraseD {α : Type} : List (String × α) → String → List (String × α)
  | [], _ => []
  | (k, w) :: rest, key => if k = key then rest else (k, w) :: eraseD rest key

/-- The key list of an association list. -/
def keysD {α : Type} (l : List (String × α)) : List String := l.map Prod.fst

/-- A medication record, as built by `MedicationTracker.add_medication` and
mutated by `archive_medication` / `reactivate_medication` (app4.py lines
92-159).  The two archive fields are present only while archived; `Option`
models dict-key presence. -/
structure Medication where
  name : String
  dosage : String
  frequency : String
  times : List String
  notes : String
  created_date : String
  active : Bool
  archived_date : Option String
  archive_reason : Option String
deriving DecidableEq, Repr

/-- A side-effect entry, as built by `log_side_effect` (app4.py 107-118). -/
structure SideEffectEntry where
  id : String
  med_id : String
  timestamp : String
  effect : String
  severity : Int
  notes : String
deriving DecidableEq, Repr

/-- A mood entry, as built by `log_mood` (app4.py 120-129). -/
structure MoodEntry where
  id : String
  timestamp : String
  mood_score : Int
  notes : String
deriving DecidableEq, Repr

/-- The in-memory state of `MedicationTracker`: the `medications` dict plus
the three append-style lists (`logs` is reserved and never written by the
application, so its element shape is left as raw `JVal`). -/
structure MedicationTracker where
  medications : List (String × Medication)
  logs : List JVal
  mood_logs : List MoodEntry
  side_effects : List SideEffectEntry
deriving DecidableEq, Repr

/-- The all-empty state from `initialize_empty_data` (app4.py 74-79). -/
def empty_tracker : MedicationTracker := ⟨[], [], [], []⟩

/-- `MedicationTracker.add_medication` (app4.py 92-105).  `med_id` is the
string drawn from `uuid.uuid4()` and `now` the ISO string of
`datetime.now()`, both passed in as the external inputs they are. -/
def add_medication (t : MedicationTracker) (med_id now : String)
    (name dosage frequency : String) (times : List String) (notes : String) :
    MedicationTracker × String :=
  let med : Medication := ⟨name, dosage, frequency, times, notes, now, true, none, none⟩
  ({ t with medications := insertD t.medications med_id med }, med_id)

/-- `MedicationTracker.log_side_effect` (app4.py 107-118).  `eid` and `ts`
are the fresh uuid and the current ISO timestamp. -/
def log_side_effect (t : MedicationTracker) (eid ts : String)
    (med_id effect : String) (severity : Int) (notes : String) :
    MedicationTracker :=
  { t with side_effects := t.side_effects ++ [⟨eid, med_id, ts, effect, severity, notes⟩] }

/-- `MedicationTracker.log_mood` (app4.py 120-129). -/
def log_mood (t : MedicationTracker) (eid ts : String)
    (mood_score : Int) (notes : String) : MedicationTracker :=
  { t with mood_logs := t.mood_logs ++ [⟨eid, ts, mood_score, notes⟩] }

/-- `MedicationTracker.delete_medication` (app4.py 131-137). -/
def delete_medication (t : MedicationTracker) (med_id : String) :
    MedicationTracker × Bool :=
  if (lookupD t.medications med_id).isSome then
    ({ t with medications := eraseD t.medications med_id }, true)
  else
    (t, false)

/-- `MedicationTracker.archive_medication` (app4.py 139-147).  `now` is the
ISO string of `datetime.now()`. -/
def archive_medication (t : MedicationTracker) (now med_id reason : String) :
    MedicationTracker × Bool :=
  match lookupD t.medications med_id with
  | some m =>
      let m2 := { m with active := false, archived_date := some now, archive_reason := some reason }
      ({ t with medications := insertD t.medications med_id m2 }, true)
  | none => (t, false)

/-- `MedicationTracker.reactivate_medication` (app4.py 149-159).  The two
guarded `del` statements amount to clearing both optional fields. -/
def reactivate_medication (t : MedicationTracker) (med_id : String) :
    MedicationTracker × Bool :=
  match lookupD t.medications med_id with
  | some m =>
      let m2 := { m with active := true, archived_date := none, archive_reason := none }
      ({ t with medications := insertD t.medications med_id m2 }, true)
  | none => (t, false)

/-- The "active" medication filter used throughout the UI
(the dict comprehension keeping records whose active flag is true, e.g. app4.py 220, 333, 516). -/
def active_meds (t : MedicationTracker) : List (String × Medication) :=
  t.medications.filter (fun p => p.2.active)

/-- The "archived" medication filter (keeping records whose active flag is false, app4.py 405). -/
def archived_meds (t : MedicationTracker) : List (String × Medication) :=
  t.medications.filter (fun p => !p.2.active)

/-- The "Clean Old Data" handler (app4.py 483-496): keep the side effects
whose parsed timestamp is `>= now - timedelta(days=365)`, report the count
removed.  `fromiso` stands for `datetime.fromisoformat`, `now` for
`datetime.now()`, both in seconds. -/
def clean_old_data (fromiso : String → Int) (now : Int)
    (t : MedicationTracker) : MedicationTracker × Nat :=
  let cutoff := now - 365 * 86400
  let kept := t.side_effects.filter (fun se => cutoff ≤ fromiso se.timestamp)
  ({ t with side_effects := kept }, t.side_effects.length - kept.length)

/-- Display name of a medication id in the analytics page (app4.py 642-643):
the medication name, or the string Unknown (Deleted) when the id is absent. -/
def displayName (meds : List (String × Medication)) (mid : String) : String :=
  match lookupD meds mid with
  | some m => m.name
  | none => "Unknown (Deleted)"

/-- The running per-group state of `med_analysis` (app4.py 645-653):
`total_effects` and the collected `severities`; `avg_severity` is filled in
by a final pass. -/
structure MedStats where
  total_effects : Nat
  severities : List Int
deriving DecidableEq, Repr

/-- One step of the `med_analysis` loop body: bump the group of `n`,
creating it (at the end, in dict order) if absent. -/
def addEffect : List (String × MedStats) → String → Int → List (String × MedStats)
  | [], n, sev => [(n, ⟨1, [sev]⟩)]
  | (k, st) :: rest, n, sev =>
      if k = n then (k, ⟨st.total_effects + 1, st.severities ++ [sev]⟩) :: rest
      else (k, st) :: addEffect rest n sev

/-- The `for effect in tracker.side_effects` accumulation loop of
`med_analysis` (app4.py 638-653), grouping by the *display name* of the
field `med_id` of each entry. -/
def buildAnalysis (meds : List (String × Medication)) :
    List SideEffectEntry → List (String × MedStats) → List (String × MedStats)
  | [], acc => acc
  | se :: rest, acc =>
      buildAnalysis meds rest (addEffect acc (displayName meds se.med_id) se.severity)

/-- `sum(severities) / len(severities)`, with exact rational division. -/
def meanSeverity (sevs : List Int) : Rat := (sevs.sum : Rat) / (sevs.length : Rat)

/-- The finished `med_analysis` table (app4.py 638-657): per display name,
the stats plus the average severity computed by the final pass. -/
def med_analysis (t : MedicationTracker) : List (String × MedStats × Rat) :=
  (buildAnalysis t.medications t.side_effects []).map
    (fun p => (p.1, p.2, meanSeverity p.2.severities))

/-- Same accumulation keyed by the raw medication id. -/
def buildAnalysisById : List SideEffectEntry → List (String × MedStats) → List (String × MedStats)
  | [], acc => acc
  | se :: rest, acc => buildAnalysisById rest (addEffect acc se.med_id se.severity)

/-- Modelled from the spec: the aggregation as the claim words it — "group
side effects by medication id and compute count + mean severity per group".
Used only for comparison against `med_analysis`, which the code keys by
display name instead. -/
def med_analysis_by_id (t : MedicationTracker) : List (String × MedStats × Rat) :=
  (buildAnalysisById t.side_effects []).map
    (fun p => (p.1, p.2, meanSeverity p.2.severities))

/-- The severities of the side effects falling into the display-name group
`n`, in list order: the reference value `med_analysis` is proved against. -/
def groupSevs (meds : List (String × Medication)) (n : String)
    (ses : List SideEffectEntry) : List Int :=
  (ses.filter (fun se => displayName meds se.med_id = n)).map (fun se => se.severity)

/-! ### Persistence: the JSON document written by `save_data` and read by
`load_data` (app4.py 59-90).  Records are serialised as flat objects, here
association lists over `JVal`; `json.dump`/`json.load` preserve object key
order and list order, and every value stored by the application is a
string, int, bool or list of strings, so nothing is coerced by
`default=str`. -/

/-- The JSON object produced for a medication dict: the seven creation-time
keys in insertion order, then the archive keys when present (they are
appended to the dict by `archive_medication`, hence stored last). -/
def medToJson (m : Medication) : List (String × JVal) :=
  [("name", JVal.s m.name), ("dosage", JVal.s m.dosage),
   ("frequency", JVal.s m.frequency), ("times", JVal.arr m.times),
   ("notes", JVal.s m.notes), ("created_date", JVal.s m.created_date),
   ("active", JVal.b m.active)]
  ++ (match m.archived_date with
      | some d => [("archived_date", JVal.s d)]
      | none => [])
  ++ (match m.archive_reason with
      | some r => [("archive_reason", JVal.s r)]
      | none => [])

/-- The JSON object produced for a side-effect entry (app4.py 109-116). -/
def seToJson (e : SideEffectEntry) : List (String × JVal) :=
  [("id", JVal.s e.id), ("med_id", JVal.s e.med_id),
   ("timestamp", JVal.s e.timestamp), ("effect", JVal.s e.effect),
   ("severity", JVal.i e.severity), ("notes", JVal.s e.notes)]

/-- The JSON object produced for a mood entry (app4.py 122-127). -/
def moodToJson (e : MoodEntry) : List (String × JVal) :=
  [("id", JVal.s e.id), ("timestamp", JVal.s e.timestamp),
   ("mood_score", JVal.i e.mood_score), ("notes", JVal.s e.notes)]

/-- String projection of a scalar JSON value. -/
def asStr : JVal → Option String
  | JVal.s v => some v
  | _ => none

/-- Integer projection of a scalar JSON value. -/
def asInt : JVal → Option Int
  | JVal.i v => some v
  | _ => none

/-- Boolean projection of a scalar JSON value. -/
def asBool : JVal → Option Bool
  | JVal.b v => some v
  | _ => none

/-- String-array projection of a scalar JSON value. -/
def asArr : JVal → Option (List String)
  | JVal.arr v => some v
  | _ => none

/-- Read a medication back from its JSON object. -/
def medFromJson (j : List (String × JVal)) : Option Medication := do
  let name ← (lookupD j "name").bind asStr
  let dosage ← (lookupD j "dosage").bind asStr
  let frequency ← (lookupD j "frequency").bind asStr
  let times ← (lookupD j "times").bind asArr
  let notes ← (lookupD j "notes").bind asStr
  let created_date ← (lookupD j "created_date").bind asStr
  let active ← (lookupD j "active").bind asBool
  some ⟨name, dosage, frequency, times, notes, created_date, active,
        (lookupD j "archived_date").bind asStr,
        (lookupD j "archive_reason").bind asStr⟩

/-- Read a side-effect entry back from its JSON object. -/
def seFromJson (j : List (String × JVal)) : Option SideEffectEntry := do
  let id ← (lookupD j "id").bind asStr
  let med_id ← (lookupD j "med_id").bind asStr
  let timestamp ← (lookupD j "timestamp").bind asStr
  let effect ← (lookupD j "effect").bind asStr
  let severity ← (lookupD j "severity").bind asInt
  let notes ← (lookupD j "notes").bind asStr
  some ⟨id, med_id, timestamp, effect, severity, notes⟩

/-- Read a mood entry back from its JSON object. -/
def moodFromJson (j : List (String × JVal)) : Option MoodEntry := do
  let id ← (lookupD j "id").bind asStr
  let timestamp ← (lookupD j "timestamp").bind asStr
  let mood_score ← (lookupD j "mood_score").bind asInt
  let notes ← (lookupD j "notes").bind asStr
  some ⟨id, timestamp, mood_score, notes⟩

/-- The top level of the persisted document.  Each collection is `Option`al
because `load_data` tolerates missing top-level keys via `.get(key,
default)`; `save_data` always writes all four. -/
structure StoredDoc where
  medications : Option (List (String × List (String × JVal)))
  logs : Option (List JVal)
  mood_logs : Option (List (List (String × JVal)))
  side_effects : Option (List (List (String × JVal)))
deriving DecidableEq, Repr

/-- `MedicationTracker.save_data` (app4.py 81-90): serialise all four
collections into one document. -/
def save_data (t : MedicationTracker) : StoredDoc :=
  ⟨some (t.medications.map (fun p => (p.1, medToJson p.2))),
   some t.logs,
   some (t.mood_logs.map moodToJson),
   some (t.side_effects.map seToJson)⟩

/-- The raw in-memory collections right after `load_data` ran: the parsed
JSON is stored verbatim, without validation. -/
structure RawState where
  medications : List (String × List (String × JVal))
  logs : List JVal
  mood_logs : List (List (String × JVal))
  side_effects : List (List (String × JVal))
deriving DecidableEq, Repr

/-- `MedicationTracker.load_data` (app4.py 59-72).  The input models the
filesystem and the parse: `none` = the backing file does not exist;
`some none` = the file exists but reading or parsing raised (caught by the
bare `except`); `some (some d)` = the file parsed to document `d`.  In the
first two cases `initialize_empty_data` runs; in the last, each collection
is taken from the document with `.get(key, default)`. -/
def load_data : Option (Option StoredDoc) → RawState
  | some (some d) =>
      ⟨d.medications.getD [], d.logs.getD [], d.mood_logs.getD [], d.side_effects.getD []⟩
  | some none => ⟨[], [], [], []⟩
  | none => ⟨[], [], [], []⟩

/-- Decode each element of a list, failing if any element fails. -/
def decodeList {α β : Type} (f : α → Option β) : List α → Option (List β)
  | [] => some []
  | x :: xs =>
      match f x, decodeList f xs with
      | some y, some ys => some (y :: ys)
      | _, _ => none

/-- Interpret raw loaded collections back as typed tracker state; `some`
exactly when every record has the shape the application itself writes. -/
def decodeTracker (r : RawState) : Option MedicationTracker := do
  let meds ← decodeList (fun p => (medFromJson p.2).map (fun m => (p.1, m))) r.medications
  let moods ← decodeList moodFromJson r.mood_logs
  let ses ← decodeList seFromJson r.side_effects
  some ⟨meds, r.logs, moods, ses⟩

/-! ### Dictionary lemmas -/

theorem lookupD_nil {α : Type} (key : String) :
    lookupD ([] : List (String × α)) key = none := rfl

theorem lookupD_cons {α : Type} (k : String) (v : α) (rest : List (String × α))
    (key : String) :
    lookupD ((k, v) :: rest) key = if k = key then some v else lookupD rest key := rfl

theorem keysD_nil {α : Type} : keysD ([] : List (String × α)) = [] := rfl

theorem keysD_cons {α : Type} (k : String) (v : α) (rest : List (String × α)) :
    keysD ((k, v) :: rest) = k :: keysD rest := rfl

theorem lookupD_insertD_self {α : Type} (l : List (String × α)) (k : String) (v : α) :
    lookupD (insertD l k v) k = some v := by
  induction l with
  | nil => simp [insertD, lookupD]
  | cons p rest ih =>
      obtain ⟨k1, v1⟩ := p
      by_cases h : k1 = k
      · simp [insertD, h, lookupD]
      · simp [insertD, h, lookupD_cons, ih]

theorem lookupD_insertD_ne {α : Type} (l : List (String × α)) (k k' : String) (v : α)
    (h : k' ≠ k) : lookupD (insertD l k v) k' = lookupD l k' := by
  have h2 : k ≠ k' := Ne.symm h
  induction l with
  | nil => simp [insertD, lookupD_cons, lookupD_nil, h2]
  | cons p rest ih =>
      obtain ⟨k1, v1⟩ := p
      by_cases h1 : k1 = k
      · subst h1
        simp [insertD, lookupD_cons, h2]
      · simp [insertD, h1, lookupD_cons, ih]

theorem lookupD_eraseD_ne {α : Type} (l : List (String × α)) (k k' : String)
    (h : k' ≠ k) : lookupD (eraseD l k) k' = lookupD l k' := by
  have h2 : k ≠ k' := Ne.symm h
  induction l with
  | nil => simp [eraseD]
  | cons p rest ih =>
      obtain ⟨k1, v1⟩ := p
      by_cases h1 : k1 = k
      · subst h1
        simp [eraseD, lookupD_cons, h2]
      · simp [eraseD, h1, lookupD_cons, ih]

theorem lookupD_eq_none_iff {α : Type} (l : List (String × α)) (k : String) :
    lookupD l k = none ↔ k ∉ keysD l := by
  induction l with
  | nil => simp [lookupD, keysD]
  | cons p rest ih =>
      obtain ⟨k1, v1⟩ := p
      by_cases h : k1 = k
      · subst h
        simp [lookupD_cons, keysD_cons]
      · rw [lookupD_cons, if_neg h, keysD_cons, ih]
        constructor
        · intro hk h2
          rcases List.mem_cons.1 h2 with h3 | h3
          · exact h h3.symm
          · exact hk h3
        · exact fun hk h2 => hk (List.mem_cons_of_mem _ h2)

theorem lookupD_eraseD_self {α : Type} (l : List (String × α)) (k : String)
    (h : (keysD l).Nodup) : lookupD (eraseD l k) k = none := by
  induction l with
  | nil => simp [eraseD, lookupD]
  | cons p rest ih =>
      obtain ⟨k1, v1⟩ := p
      rw [keysD_cons, List.nodup_cons] at h
      by_cases h1 : k1 = k
      · subst h1
        simp only [eraseD, if_pos rfl]
        exact (lookupD_eq_none_iff rest k1).2 h.1
      · simp [eraseD, h1, lookupD_cons, ih h.2]

theorem keysD_insertD {α : Type} (l : List (String × α)) (k : String) (v : α) :
    keysD (insertD l k v) = if k ∈ keysD l then keysD l else keysD l ++ [k] := by
  induction l with
  | nil => simp [insertD, keysD]
  | cons p rest ih =>
      obtain ⟨k1, v1⟩ := p
      by_cases h : k1 = k
      · subst h
        simp [insertD, keysD_cons]
      · have hne : ¬ k = k1 := fun h2 => h h2.symm
        simp only [insertD, if_neg h, keysD_cons, ih]
        by_cases h2 : k ∈ keysD rest
        · simp [h2, hne]
        · simp [h2, hne]

theorem nodup_keysD_insertD {α : Type} (l : List (String × α)) (k : String) (v : α)
    (h : (keysD l).Nodup) : (keysD (insertD l k v)).Nodup := by
  rw [keysD_insertD]
  by_cases h2 : k ∈ keysD l
  · simpa [h2] using h
  · simp only [if_neg h2]
    simpa [List.nodup_append, h2] using h

theorem mem_of_lookupD {α : Type} (l : List (String × α)) (k : String) (v : α)
    (h : lookupD l k = some v) : (k, v) ∈ l := by
  induction l with
  | nil => simp [lookupD] at h
  | cons p rest ih =>
      obtain ⟨k1, v1⟩ := p
      rw [lookupD_cons] at h
      by_cases h1 : k1 = k
      · rw [if_pos h1] at h
        injection h with h2
        subst h1
        subst h2
        exact List.mem_cons_self _ _
      · rw [if_neg h1] at h
        exact List.mem_cons_of_mem _ (ih h)

theorem lookupD_of_mem_nodup {α : Type} (l : List (String × α)) (k : String) (v : α)
    (hn : (keysD l).Nodup) (hm : (k, v) ∈ l) : lookupD l k = some v := by
  induction l with
  | nil => simp at hm
  | cons p rest ih =>
      obtain ⟨k1, v1⟩ := p
      rw [keysD_cons, List.nodup_cons] at hn
      rw [lookupD_cons]
      rcases List.mem_cons.1 hm with h | h
      · injection h with ha hb
        subst ha
        subst hb
        rw [if_pos rfl]
      · by_cases h1 : k1 = k
        · subst h1
          exact absurd (show k1 ∈ keysD rest from List.mem_map_of_mem Prod.fst h) hn.1
        · rw [if_neg h1]
          exact ih hn.2 h

theorem notmem_keysD_filter {α : Type} (l : List (String × α))
    (f : String × α → Bool) (k : String) (h : k ∉ keysD l) :
    k ∉ keysD (l.filter f) := by
  intro hmem
  simp only [keysD] at hmem h
  rcases List.mem_map.1 hmem with ⟨q, hq, hq2⟩
  exact h (hq2 ▸ List.mem_map_of_mem Prod.fst (List.mem_of_mem_filter hq))

theorem lookupD_filter {α : Type} (l : List (String × α)) (k : String) (m : α)
    (f : String × α → Bool) (hn : (keysD l).Nodup) (h : lookupD l k = some m) :
    lookupD (l.filter f) k = if f (k, m) then some m else none := by
  induction l with
  | nil => simp [lookupD] at h
  | cons p rest ih =>
      obtain ⟨k1, v1⟩ := p
      rw [keysD_cons, List.nodup_cons] at hn
      rw [lookupD_cons] at h
      by_cases h1 : k1 = k
      · rw [if_pos h1] at h
        injection h with h2
        subst h1
        subst h2
        rw [List.filter_cons]
        by_cases hf : f (k1, v1)
        · rw [if_pos hf, lookupD_cons, if_pos rfl, if_pos hf]
        · rw [if_neg hf, if_neg hf]
          exact (lookupD_eq_none_iff _ _).2 (notmem_keysD_filter rest f k1 hn.1)
      · rw [if_neg h1] at h
        rw [List.filter_cons]
        by_cases hf : f (k1, v1)
        · rw [if_pos hf, lookupD_cons, if_neg h1]
          exact ih hn.2 h
        · rw [if_neg hf]
          exact ih hn.2 h

/-! ### Lemmas about the `med_analysis` accumulation loop -/

theorem lookupD_addEffect (acc : List (String × MedStats)) (n key : String) (sev : Int) :
    lookupD (addEffect acc n sev) key =
      if key = n then
        match lookupD acc n with
        | some st => some ⟨st.total_effects + 1, st.severities ++ [sev]⟩
        | none => some ⟨1, [sev]⟩
      else lookupD acc key := by
  induction acc with
  | nil =>
      by_cases hk : key = n
      · subst hk
        simp [addEffect, lookupD_cons, lookupD_nil]
      · have h2 : ¬ n = key := fun h3 => hk h3.symm
        simp [addEffect, lookupD_cons, lookupD_nil, hk, h2]
  | cons p rest ih =>
      obtain ⟨k, st⟩ := p
      by_cases h : k = n
      · subst h
        by_cases hk : key = k
        · subst hk
          simp [addEffect, lookupD_cons]
        · have h2 : ¬ k = key := fun h3 => hk h3.symm
          simp [addEffect, lookupD_cons, h2, hk]
      · by_cases hk : k = key
        · subst hk
          simp [addEffect, h, lookupD_cons]
        · simp [addEffect, h, hk, lookupD_cons, ih]

theorem keysD_addEffect (acc : List (String × MedStats)) (n : String) (sev : Int) :
    keysD (addEffect acc n sev) = if n ∈ keysD acc then keysD acc else keysD acc ++ [n] := by
  induction acc with
  | nil => simp [addEffect, keysD]
  | cons p rest ih =>
      obtain ⟨k, st⟩ := p
      by_cases h : k = n
      · subst h
        simp [addEffect, keysD_cons]
      · have hne : ¬ n = k := fun h2 => h h2.symm
        simp only [addEffect, if_neg h, keysD_cons, ih]
        by_cases h2 : n ∈ keysD rest
        · simp [h2, hne]
        · simp [h2, hne]

theorem nodup_keysD_addEffect (acc : List (String × MedStats)) (n : String) (sev : Int)
    (h : (keysD acc).Nodup) : (keysD (addEffect acc n sev)).Nodup := by
  rw [keysD_addEffect]
  by_cases h2 : n ∈ keysD acc
  · simpa [h2] using h
  · simp only [if_neg h2]
    simpa [List.nodup_append, h2] using h

theorem nodup_keysD_buildAnalysis (meds : List (String × Medication))
    (ses : List SideEffectEntry) (acc : List (String × MedStats))
    (h : (keysD acc).Nodup) : (keysD (buildAnalysis meds ses acc)).Nodup := by
  induction ses generalizing acc with
  | nil => exact h
  | cons se rest ih =>
      exact ih _ (nodup_keysD_addEffect acc _ se.severity h)

theorem groupSevs_nil (meds : List (String × Medication)) (n : String) :
    groupSevs meds n [] = [] := rfl

theorem groupSevs_cons (meds : List (String × Medication)) (n : String)
    (se : SideEffectEntry) (rest : List SideEffectEntry) :
    groupSevs meds n (se :: rest) =
      if displayName meds se.med_id = n then se.severity :: groupSevs meds n rest
      else groupSevs meds n rest := by
  by_cases h : displayName meds se.med_id = n
  · simp [groupSevs, List.filter_cons, h]
  · simp [groupSevs, List.filter_cons, h]

theorem lookupD_buildAnalysis (meds : List (String × Medication))
    (ses : List SideEffectEntry) (acc : List (String × MedStats)) (n : String) :
    lookupD (buildAnalysis meds ses acc) n =
      match lookupD acc n with
      | some st => some ⟨st.total_effects + (groupSevs meds n ses).length,
                         st.severities ++ groupSevs meds n ses⟩
      | none =>
          if groupSevs meds n ses = [] then none
          else some ⟨(groupSevs meds n ses).length, groupSevs meds n ses⟩ := by
  induction ses generalizing acc with
  | nil =>
      cases hacc : lookupD acc n
      · simp [buildAnalysis, groupSevs_nil, hacc]
      · simp [buildAnalysis, groupSevs_nil, hacc]
  | cons se rest ih =>
      rw [show buildAnalysis meds (se :: rest) acc
            = buildAnalysis meds rest (addEffect acc (displayName meds se.med_id) se.severity)
          from rfl]
      rw [ih, lookupD_addEffect, groupSevs_cons]
      by_cases hdn : displayName meds se.med_id = n
      · rw [if_pos hdn, if_pos hdn.symm, hdn]
        cases hacc : lookupD acc n
        · simp only [hacc]
          have hne : ¬ (se.severity :: groupSevs meds n rest = []) := by simp
          rw [if_neg hne]
          cases hrest : groupSevs meds n rest
          · simp
          · simp [Nat.add_comm]
        · simp only [hacc, List.length_cons, List.append_assoc, List.singleton_append,
            Option.some.injEq, MedStats.mk.injEq]
          refine ⟨by omega, ?_⟩
          simp
      · rw [if_neg hdn, if_neg (fun h2 => hdn h2.symm)]

/-! ### Round-trip of the persisted document -/

theorem medFromJson_medToJson (m : Medication) : medFromJson (medToJson m) = some m := by
  obtain ⟨name, dosage, frequency, times, notes, created_date, active, ad, ar⟩ := m
  cases ad <;> cases ar <;> rfl

theorem seFromJson_seToJson (e : SideEffectEntry) : seFromJson (seToJson e) = some e := by
  obtain ⟨id, med_id, timestamp, effect, severity, notes⟩ := e
  rfl

theorem moodFromJson_moodToJson (e : MoodEntry) : moodFromJson (moodToJson e) = some e := by
  obtain ⟨id, timestamp, mood_score, notes⟩ := e
  rfl

theorem decodeList_map {α β : Type} (f : α → Option β) (g : β → α)
    (h : ∀ x, f (g x) = some x) (l : List β) : decodeList f (l.map g) = some l := by
  induction l with
  | nil => rfl
  | cons x xs ih => simp [decodeList, h x, ih]

theorem decode_load_save (t : MedicationTracker) :
    decodeTracker (load_data (some (some (save_data t)))) = some t := by
  obtain ⟨meds, logs, moods, ses⟩ := t
  have e1 : decodeList (fun p => (medFromJson p.2).map (fun m => (p.1, m)))
      (meds.map (fun p => (p.1, medToJson p.2))) = some meds :=
    decodeList_map _ _ (fun q => by rw [medFromJson_medToJson]; rfl) meds
  have e2 : decodeList moodFromJson (moods.map moodToJson) = some moods :=
    decodeList_map _ _ moodFromJson_moodToJson moods
  have e3 : decodeList seFromJson (ses.map seToJson) = some ses :=
    decodeList_map _ _ seFromJson_seToJson ses
  simp [load_data, save_data, decodeTracker, e1, e2, e3]

theorem length_sub_length_filter {α : Type} (l : List α) (p : α → Bool) :
    l.length - (l.filter p).length = (l.filter (fun a => !(p a))).length := by
  induction l with
  | nil => rfl
  | cons x xs ih =>
      have hle := List.length_filter_le p xs
      cases h : p x
      · rw [List.filter_cons_of_neg (by simp [h]), List.filter_cons_of_pos (by simp [h])]
        simp only [List.length_cons]
        omega
      · rw [List.filter_cons_of_pos (by simp [h]), List.filter_cons_of_neg (by simp [h])]
        simp only [List.length_cons]
        omega

/-! ### Concrete stores used to instantiate the theorems -/

/-- An active, never-archived medication named Aspirin. -/
def exMedA : Medication :=
  ⟨"Aspirin", "100mg", "2 times daily", ["08:00", "20:00"], "", "2026-01-01T08:00:00", true, none, none⟩

/-- A second medication that shares the name Aspirin (the store allows it). -/
def exMedB : Medication :=
  ⟨"Aspirin", "50mg", "1 times daily", ["09:00"], "", "2026-01-02T08:00:00", true, none, none⟩

/-- A store holding two distinct medication ids with the same display name and
one side effect reported against each. -/
def exC1 : MedicationTracker :=
  ⟨[("A", exMedA), ("B", exMedB)], [], [],
   [⟨"s1", "A", "2026-01-03T08:00:00", "Headache", 1, ""⟩,
    ⟨"s2", "B", "2026-01-04T08:00:00", "Nausea", 5, ""⟩]⟩

/-- A medication named X with a unique display name. -/
def exMedX : Medication :=
  ⟨"X", "10mg", "1 times daily", ["08:00"], "", "2026-01-01T00:00:00", true, none, none⟩

/-- A store where medication X has three side effects of severities 1, 3, 5. -/
def exC1w : MedicationTracker :=
  ⟨[("X1", exMedX)], [], [],
   [⟨"s1", "X1", "2026-01-02T00:00:00", "Headache", 1, ""⟩,
    ⟨"s2", "X1", "2026-01-03T00:00:00", "Nausea", 3, ""⟩,
    ⟨"s3", "X1", "2026-01-04T00:00:00", "Fatigue", 5, ""⟩]⟩

/-! ### The claims -/

/-- Claim C2, counterexample: `log_side_effect` performs no severity
validation — called with severity 7, it appends an entry whose severity is
7, outside [1,5], so the claim "appended entries have severity in [1,5] for
all inputs" is false as stated. -/
theorem C2_counterexample :
    (log_side_effect empty_tracker "e1" "2026-01-01T00:00:00" "m1" "Nausea" 7 "").side_effects.map
        (fun e => e.severity) = [7] ∧
    ¬ ((1 : Int) ≤ 7 ∧ (7 : Int) ≤ 5) := by
  exact ⟨rfl, by decide⟩

/-- Claim C2 (amended): `log_side_effect` appends the severity argument
verbatim, so the severity of the appended entry lies in [1,5] exactly when the
argument does; the store itself never rejects or clamps a value. -/
theorem C2_severity_preserved (t : MedicationTracker)
    (eid ts med_id effect : String) (sev : Int) (notes : String)
    (h : 1 ≤ sev ∧ sev ≤ 5) :
    (log_side_effect t eid ts med_id effect sev notes).side_effects =
      t.side_effects ++ [⟨eid, med_id, ts, effect, sev, notes⟩] ∧
    1 ≤ (⟨eid, med_id, ts, effect, sev, notes⟩ : SideEffectEntry).severity ∧
    (⟨eid, med_id, ts, effect, sev, notes⟩ : SideEffectEntry).severity ≤ 5 :=
  ⟨rfl, h.1, h.2⟩

/-- Witness for C2: a call with severity 3 appends that entry, in range. -/
theorem C2_severity_preserved_witness :
    ((1 : Int) ≤ 3 ∧ (3 : Int) ≤ 5) ∧
    (log_side_effect empty_tracker "e1" "t1" "m1" "Headache" 3 "").side_effects =
      [⟨"e1", "m1", "t1", "Headache", 3, ""⟩] := by
  refine ⟨by decide, ?_⟩
  exact (C2_severity_preserved empty_tracker "e1" "t1" "m1" "Headache" 3 "" (by decide)).1

/-- Claim C3: the Clean Old Data handler with its fixed 365-day window
removes exactly the side effects whose parsed timestamp is strictly older
than `now - 365` days, keeps all the others in order, reports the number
removed, and touches no other collection. -/
theorem C3_clean_old_data (fromiso : String → Int) (now : Int) (t : MedicationTracker) :
    (clean_old_data fromiso now t).1.side_effects =
      t.side_effects.filter (fun se => ¬ (fromiso se.timestamp < now - 365 * 86400)) ∧
    (clean_old_data fromiso now t).2 =
      (t.side_effects.filter (fun se => fromiso se.timestamp < now - 365 * 86400)).length ∧
    (clean_old_data fromiso now t).1.medications = t.medications ∧
    (clean_old_data fromiso now t).1.mood_logs = t.mood_logs ∧
    (clean_old_data fromiso now t).1.logs = t.logs := by
  refine ⟨?_, ?_, rfl, rfl, rfl⟩
  · exact List.filter_congr (fun se _ => decide_eq_decide.2 (Iff.symm Int.not_lt))
  · show t.side_effects.length -
        (t.side_effects.filter (fun se => now - 365 * 86400 ≤ fromiso se.timestamp)).length = _
    rw [length_sub_length_filter]
    refine congrArg List.length (List.filter_congr (fun se _ => ?_))
    rw [← decide_not]
    exact decide_eq_decide.2 Int.not_le

/-- Claim C4: `delete_medication` on an unknown id returns false and leaves
the whole state unchanged; on a known id it removes exactly that medication
(other ids keep their records), returns true, and leaves the side-effect
list — and every other collection — untouched. -/
theorem C4_delete_medication (t : MedicationTracker) (med_id : String)
    (hn : (keysD t.medications).Nodup) :
    (lookupD t.medications med_id = none → delete_medication t med_id = (t, false)) ∧
    (∀ m, lookupD t.medications med_id = some m →
      (delete_medication t med_id).2 = true ∧
      lookupD (delete_medication t med_id).1.medications med_id = none ∧
      (∀ k, k ≠ med_id →
        lookupD (delete_medication t med_id).1.medications k = lookupD t.medications k) ∧
      (delete_medication t med_id).1.side_effects = t.side_effects ∧
      (delete_medication t med_id).1.mood_logs = t.mood_logs ∧
      (delete_medication t med_id).1.logs = t.logs) := by
  constructor
  · intro h
    simp [delete_medication, h]
  · intro m hm
    have hs : (lookupD t.medications med_id).isSome = true := by rw [hm]; rfl
    have hd : delete_medication t med_id =
        ({ t with medications := eraseD t.medications med_id }, true) := by
      simp [delete_medication, hs]
    rw [hd]
    refine ⟨rfl, ?_, ?_, rfl, rfl, rfl⟩
    · exact lookupD_eraseD_self t.medications med_id hn
    · intro k hk
      exact lookupD_eraseD_ne t.medications med_id k hk

/-- Witness for C4: on the concrete store, deleting the unknown id "zzz" is
a no-op returning false, and deleting "A" removes exactly "A". -/
theorem C4_delete_medication_witness :
    (keysD exC1.medications).Nodup ∧
    delete_medication exC1 "zzz" = (exC1, false) ∧
    (delete_medication exC1 "A").2 = true ∧
    lookupD (delete_medication exC1 "A").1.medications "A" = none ∧
    lookupD (delete_medication exC1 "A").1.medications "B" = lookupD exC1.medications "B" ∧
    (delete_medication exC1 "A").1.side_effects = exC1.side_effects := by
  have h1 := C4_delete_medication exC1 "zzz" (by decide)
  have h2 := (C4_delete_medication exC1 "A" (by decide)).2 exMedA rfl
  exact ⟨by decide, h1.1 rfl, h2.1, h2.2.1, h2.2.2.1 "B" (by decide), h2.2.2.2.1⟩

/-- Claim C5: serialising the collections with `save_data` and loading the
resulting document back yields exactly the original collections — same ids,
same field values, same order of the list-typed collections. -/
theorem C5_roundtrip (t : MedicationTracker) :
    decodeTracker (load_data (some (some (save_data t)))) = some t :=
  decode_load_save t

/-- Claim C8: on startup, a document that exists and parses is loaded
verbatim with missing top-level keys defaulting to empty; a missing file or
any read/parse failure silently yields the all-empty collections —
`load_data` is total, so no load error is ever surfaced. -/
theorem C8_load_data (d : StoredDoc) :
    load_data (some (some d)) =
      ⟨d.medications.getD [], d.logs.getD [], d.mood_logs.getD [], d.side_effects.getD []⟩ ∧
    load_data (some none) = ⟨[], [], [], []⟩ ∧
    load_data none = ⟨[], [], [], []⟩ :=
  ⟨rfl, rfl, rfl⟩

/-- Claim C10: `log_side_effect` appends exactly one entry at the end of
`side_effects` and leaves the other three collections unchanged;
`log_mood` appends exactly one entry at the end of `mood_logs` and leaves
the other three collections unchanged. -/
theorem C10_log_frame (t : MedicationTracker) (eid ts med_id effect : String)
    (severity : Int) (notes : String) (mid2 ts2 : String) (mood_score : Int)
    (notes2 : String) :
    (log_side_effect t eid ts med_id effect severity notes).side_effects =
      t.side_effects ++ [⟨eid, med_id, ts, effect, severity, notes⟩] ∧
    (log_side_effect t eid ts med_id effect severity notes).medications = t.medications ∧
    (log_side_effect t eid ts med_id effect severity notes).mood_logs = t.mood_logs ∧
    (log_side_effect t eid ts med_id effect severity notes).logs = t.logs ∧
    (log_mood t mid2 ts2 mood_score notes2).mood_logs =
      t.mood_logs ++ [⟨mid2, ts2, mood_score, notes2⟩] ∧
    (log_mood t mid2 ts2 mood_score notes2).medications = t.medications ∧
    (log_mood t mid2 ts2 mood_score notes2).side_effects = t.side_effects ∧
    (log_mood t mid2 ts2 mood_score notes2).logs = t.logs :=
  ⟨rfl, rfl, rfl, rfl, rfl, rfl, rfl, rfl⟩

/-- Claim C6: `add_medication` called with a fresh id (the uuid draw is
modelled as the argument `med_id`; its freshness is the hypothesis) returns
that id, stores under it a record with `active = true` and
`created_date = now`, appends the id at the end of the key list while
keeping every existing record, leaves the other collections unchanged, and
the persisted document of the result reloads to the result.  No condition
on `name` is required: duplicate names are accepted. -/
theorem C6_add_medication (t : MedicationTracker)
    (med_id now name dosage frequency : String) (times : List String) (notes : String)
    (hfresh : med_id ∉ keysD t.medications) :
    (add_medication t med_id now name dosage frequency times notes).2 = med_id ∧
    lookupD (add_medication t med_id now name dosage frequency times notes).1.medications med_id =
      some ⟨name, dosage, frequency, times, notes, now, true, none, none⟩ ∧
    keysD (add_medication t med_id now name dosage frequency times notes).1.medications =
      keysD t.medications ++ [med_id] ∧
    (∀ k, k ≠ med_id →
      lookupD (add_medication t med_id now name dosage frequency times notes).1.medications k =
        lookupD t.medications k) ∧
    (add_medication t med_id now name dosage frequency times notes).1.side_effects =
      t.side_effects ∧
    (add_medication t med_id now name dosage frequency times notes).1.mood_logs = t.mood_logs ∧
    (add_medication t med_id now name dosage frequency times notes).1.logs = t.logs ∧
    decodeTracker (load_data (some (some (save_data
      (add_medication t med_id now name dosage frequency times notes).1)))) =
      some (add_medication t med_id now name dosage frequency times notes).1 := by
  refine ⟨rfl, lookupD_insertD_self _ _ _, ?_, ?_, rfl, rfl, rfl, decode_load_save _⟩
  · show keysD (insertD t.medications med_id
        ⟨name, dosage, frequency, times, notes, now, true, none, none⟩) =
      keysD t.medications ++ [med_id]
    rw [keysD_insertD, if_neg hfresh]
  · intro k hk
    exact lookupD_insertD_ne _ _ _ _ hk

/-- Witness for C6: adding a medication under the fresh id "C" on the
concrete store returns "C", stores the expected record, and appends "C"
after the existing keys. -/
theorem C6_add_medication_witness :
    ("C" ∉ keysD exC1.medications) ∧
    (add_medication exC1 "C" "2026-02-01T00:00:00" "Ibuprofen" "200mg" "1 times daily"
      ["07:00"] "").2 = "C" ∧
    lookupD (add_medication exC1 "C" "2026-02-01T00:00:00" "Ibuprofen" "200mg" "1 times daily"
      ["07:00"] "").1.medications "C" =
      some ⟨"Ibuprofen", "200mg", "1 times daily", ["07:00"], "", "2026-02-01T00:00:00",
        true, none, none⟩ ∧
    keysD (add_medication exC1 "C" "2026-02-01T00:00:00" "Ibuprofen" "200mg" "1 times daily"
      ["07:00"] "").1.medications = ["A", "B", "C"] := by
  have h := C6_add_medication exC1 "C" "2026-02-01T00:00:00" "Ibuprofen" "200mg"
    "1 times daily" ["07:00"] "" (by decide)
  exact ⟨by decide, h.1, h.2.1, by rw [h.2.2.1]; rfl⟩

/-- What `archive_medication` does on a present id, as one equation. -/
theorem archive_medication_eq (t : MedicationTracker) (now med_id reason : String)
    (m : Medication) (hm : lookupD t.medications med_id = some m) :
    archive_medication t now med_id reason =
      ({ t with medications := insertD t.medications med_id { m with active := false, archived_date := some now, archive_reason := some reason } }, true) := by
  simp [archive_medication, hm]

/-- What `reactivate_medication` does on a present id, as one equation. -/
theorem reactivate_medication_eq (t : MedicationTracker) (med_id : String)
    (m : Medication) (hm : lookupD t.medications med_id = some m) :
    reactivate_medication t med_id =
      ({ t with medications := insertD t.medications med_id { m with active := true, archived_date := none, archive_reason := none } }, true) := by
  simp [reactivate_medication, hm]

/-- Claim C9: `reactivate_medication` returns true for every id present in
the medications map and sets `active := true`, clearing both archive
fields — also on a record that was never archived, since the embedded
clearing is total just as each Python `del` is guarded by a presence
check. -/
theorem C9_reactivate_total (t : MedicationTracker) (med_id : String)
    (m : Medication) (hm : lookupD t.medications med_id = some m) :
    (reactivate_medication t med_id).2 = true ∧
    lookupD (reactivate_medication t med_id).1.medications med_id =
      some { m with active := true, archived_date := none, archive_reason := none } := by
  rw [reactivate_medication_eq t med_id m hm]
  exact ⟨rfl, lookupD_insertD_self _ _ _⟩

/-- Witness for C9: reactivating "A", whose record carries no
`archived_date` or `archive_reason`, succeeds and keeps it active. -/
theorem C9_reactivate_total_witness :
    lookupD exC1.medications "A" = some exMedA ∧
    exMedA.archived_date = none ∧ exMedA.archive_reason = none ∧
    (reactivate_medication exC1 "A").2 = true ∧
    lookupD (reactivate_medication exC1 "A").1.medications "A" =
      some { exMedA with active := true, archived_date := none, archive_reason := none } := by
  have h := C9_reactivate_total exC1 "A" exMedA rfl
  exact ⟨rfl, rfl, rfl, h.1, h.2⟩

/-- Claim C7: archiving a present id returns true, stamps
`archived_date = now` and the reason, removes the id from the active
filter and adds it to the archived filter; reactivating it afterwards
returns true, clears both archive fields, and restores it to the active
filter (and removes it from the archived one). -/
theorem C7_archive_reactivate (t : MedicationTracker) (now med_id reason : String)
    (m : Medication) (hn : (keysD t.medications).Nodup)
    (hm : lookupD t.medications med_id = some m) :
    (archive_medication t now med_id reason).2 = true ∧
    lookupD (archive_medication t now med_id reason).1.medications med_id =
      some { m with active := false, archived_date := some now, archive_reason := some reason } ∧
    lookupD (active_meds (archive_medication t now med_id reason).1) med_id = none ∧
    lookupD (archived_meds (archive_medication t now med_id reason).1) med_id =
      some { m with active := false, archived_date := some now, archive_reason := some reason } ∧
    (reactivate_medication (archive_medication t now med_id reason).1 med_id).2 = true ∧
    lookupD (reactivate_medication (archive_medication t now med_id reason).1 med_id).1.medications med_id =
      some { m with active := true, archived_date := none, archive_reason := none } ∧
    lookupD (active_meds (reactivate_medication (archive_medication t now med_id reason).1 med_id).1) med_id =
      some { m with active := true, archived_date := none, archive_reason := none } ∧
    lookupD (archived_meds (reactivate_medication (archive_medication t now med_id reason).1 med_id).1) med_id =
      none := by
  have ha := archive_medication_eq t now med_id reason m hm
  have hn1 : (keysD (insertD t.medications med_id { m with active := false, archived_date := some now, archive_reason := some reason })).Nodup :=
    nodup_keysD_insertD _ _ _ hn
  have hl1 : lookupD (insertD t.medications med_id { m with active := false, archived_date := some now, archive_reason := some reason }) med_id =
      some { m with active := false, archived_date := some now, archive_reason := some reason } :=
    lookupD_insertD_self _ _ _
  have hfa := lookupD_filter _ med_id _ (fun p => p.2.active) hn1 hl1
  have hfr := lookupD_filter _ med_id _ (fun p => !p.2.active) hn1 hl1
  have hr := reactivate_medication_eq ({ t with medications := insertD t.medications med_id { m with active := false, archived_date := some now, archive_reason := some reason } }) med_id
    ({ m with active := false, archived_date := some now, archive_reason := some reason }) hl1
  have hn2 : (keysD (insertD (insertD t.medications med_id { m with active := false, archived_date := some now, archive_reason := some reason }) med_id { m with active := true, archived_date := none, archive_reason := none })).Nodup :=
    nodup_keysD_insertD _ _ _ hn1
  have hl2 : lookupD (insertD (insertD t.medications med_id { m with active := false, archived_date := some now, archive_reason := some reason }) med_id { m with active := true, archived_date := none, archive_reason := none }) med_id =
      some { m with active := true, archived_date := none, archive_reason := none } :=
    lookupD_insertD_self _ _ _
  have hfa2 := lookupD_filter _ med_id _ (fun p => p.2.active) hn2 hl2
  have hfr2 := lookupD_filter _ med_id _ (fun p => !p.2.active) hn2 hl2
  refine ⟨?_, ?_, ?_, ?_, ?_, ?_, ?_, ?_⟩
  · rw [ha]
  · rw [ha]
    exact hl1
  · rw [ha]
    simpa [active_meds] using hfa
  · rw [ha]
    simpa [archived_meds] using hfr
  · rw [ha, hr]
  · rw [ha, hr]
    exact hl2
  · rw [ha, hr]
    simpa [active_meds] using hfa2
  · rw [ha, hr]
    simpa [archived_meds] using hfr2

/-- Witness for C7: archiving "A" on the concrete store, then reactivating
it, with all filter memberships evaluated. -/
theorem C7_archive_reactivate_witness :
    ((keysD exC1.medications).Nodup ∧ lookupD exC1.medications "A" = some exMedA) ∧
    (archive_medication exC1 "2026-03-01T00:00:00" "A" "Course completed").2 = true ∧
    lookupD (active_meds (archive_medication exC1 "2026-03-01T00:00:00" "A" "Course completed").1) "A" = none ∧
    lookupD (archived_meds (archive_medication exC1 "2026-03-01T00:00:00" "A" "Course completed").1) "A" =
      some { exMedA with active := false, archived_date := some "2026-03-01T00:00:00", archive_reason := some "Course completed" } ∧
    (reactivate_medication (archive_medication exC1 "2026-03-01T00:00:00" "A" "Course completed").1 "A").2 = true ∧
    lookupD (active_meds (reactivate_medication (archive_medication exC1 "2026-03-01T00:00:00" "A" "Course completed").1 "A").1) "A" =
      some { exMedA with active := true, archived_date := none, archive_reason := none } := by
  have h := C7_archive_reactivate exC1 "2026-03-01T00:00:00" "A" "Course completed" exMedA
    (by decide) rfl
  exact ⟨⟨by decide, rfl⟩, h.1, h.2.2.1, h.2.2.2.1, h.2.2.2.2.1, h.2.2.2.2.2.2.1⟩

theorem lookupD_buildAnalysis_nil (meds : List (String × Medication))
    (ses : List SideEffectEntry) (n : String) :
    lookupD (buildAnalysis meds ses []) n =
      if groupSevs meds n ses = [] then none
      else some ⟨(groupSevs meds n ses).length, groupSevs meds n ses⟩ := by
  rw [lookupD_buildAnalysis]
  rfl

/-- Claim C1, counterexample: the aggregation does not group by medication
id.  In the store `exC1` the two side effects carry distinct medication ids
"A" and "B", yet `med_analysis` merges them into the single display-name
group "Aspirin" with `total = 2`; grouping by medication id (the wording of
the claim, `med_analysis_by_id`) would instead give two groups of total 1. -/
theorem C1_counterexample :
    med_analysis exC1 = [("Aspirin", ⟨2, [1, 5]⟩, meanSeverity [1, 5])] ∧
    med_analysis_by_id exC1 =
      [("A", ⟨1, [1]⟩, meanSeverity [1]), ("B", ⟨1, [5]⟩, meanSeverity [5])] ∧
    med_analysis exC1 ≠ med_analysis_by_id exC1 ∧
    meanSeverity [1, 5] = 3 := by
  refine ⟨rfl, rfl, ?_, by norm_num [meanSeverity]⟩
  intro h
  have h2 : (med_analysis exC1).map Prod.fst = (med_analysis_by_id exC1).map Prod.fst := by
    rw [h]
  exact absurd h2 (by decide)

/-- Claim C1 (amended): the aggregation groups side effects by the display
name of their medication id (the medication name, or Unknown (Deleted)
for an absent id); each emitted group reports as `total_effects` the count
of entries whose display name is the group key and as average the mean of
exactly those severities.  For any medication whose name is shared by no
other referenced id this coincides with per-id grouping, so severities
[1,3,5] for such a medication X yield total 3 and average 3. -/
theorem C1_groups_by_display_name (t : MedicationTracker) (p : String × MedStats × Rat)
    (hp : p ∈ med_analysis t) :
    p.2.1.severities = groupSevs t.medications p.1 t.side_effects ∧
    p.2.1.total_effects = (groupSevs t.medications p.1 t.side_effects).length ∧
    p.2.2 = meanSeverity (groupSevs t.medications p.1 t.side_effects) := by
  obtain ⟨q, hq, rfl⟩ := List.mem_map.1 hp
  obtain ⟨k, st⟩ := q
  have hn : (keysD (buildAnalysis t.medications t.side_effects [])).Nodup :=
    nodup_keysD_buildAnalysis _ _ [] List.nodup_nil
  have hl : lookupD (buildAnalysis t.medications t.side_effects []) k = some st :=
    lookupD_of_mem_nodup _ _ _ hn hq
  rw [lookupD_buildAnalysis_nil] at hl
  by_cases hgs : groupSevs t.medications k t.side_effects = []
  · rw [if_pos hgs] at hl
    exact Option.noConfusion hl
  · rw [if_neg hgs] at hl
    injection hl with hl2
    show st.severities = groupSevs t.medications k t.side_effects ∧
      st.total_effects = (groupSevs t.medications k t.side_effects).length ∧
      meanSeverity st.severities = meanSeverity (groupSevs t.medications k t.side_effects)
    rw [← hl2]
    exact ⟨rfl, rfl, rfl⟩

/-- Witness for C1: in `exC1w` medication X (unique name, severities
1, 3, 5) produces the group ("X", total 3, severities [1,3,5]) whose
average is 3. -/
theorem C1_groups_by_display_name_witness :
    (("X", (⟨3, [1, 3, 5]⟩ : MedStats), meanSeverity [1, 3, 5]) ∈ med_analysis exC1w) ∧
    ((⟨3, [1, 3, 5]⟩ : MedStats).severities = groupSevs exC1w.medications "X" exC1w.side_effects ∧
     (⟨3, [1, 3, 5]⟩ : MedStats).total_effects =
       (groupSevs exC1w.medications "X" exC1w.side_effects).length ∧
     meanSeverity [1, 3, 5] = meanSeverity (groupSevs exC1w.medications "X" exC1w.side_effects)) ∧
    meanSeverity [1, 3, 5] = 3 := by
  have hmem : ("X", (⟨3, [1, 3, 5]⟩ : MedStats), meanSeverity [1, 3, 5]) ∈ med_analysis exC1w := by
    rw [show med_analysis exC1w = [("X", ⟨3, [1, 3, 5]⟩, meanSeverity [1, 3, 5])] from rfl]
    exact List.mem_singleton.2 rfl
  exact ⟨hmem, C1_groups_by_display_name exC1w _ hmem, by norm_num [meanSeverity]⟩

end MediTracker
